import Mathlib

/-!
Verification of the asynchronous document-annotation pipeline of
`document-manager-service`: the SQS tagging worker, the SQS embedding worker,
their shared interfaces (tag creation, document-tag linking, chunk-embedding
creation, document status updates) and the queue consumer loops.

The Python sources are shallowly embedded: database state becomes an explicit
`State` record, external services (S3 download, PyPDF2 parse, KeyBERT,
SentenceTransformer cosine similarity) become environment parameters, and
typed Python exceptions become `Except` results.
-/

namespace DocManager

/-- Status values shared by `TagStatusEnum` (src/app/db/models/document.py)
and the `embeddingstatusenum` DB enum declared by the alembic migration
`dc8e889f1401_add_embedding_status.py`. -/
inductive Status
  | pending
  | processing
  | completed
  | failed
  | skipped
deriving DecidableEq, Repr

/-- A row of the `tags` table (src/app/db/models/tag.py); the embedding vector
is abstracted away (it is a deterministic function of `text`). -/
structure TagRow where
  id : Nat
  text : String
deriving DecidableEq, Repr

/-- A row of the `documents` table. `tagStatus`/`tagStatusUpdatedAt` come from
src/app/db/models/document.py. Modelled from the spec: the
`embeddingStatus`/`embeddingStatusUpdatedAt` columns — their SQLAlchemy
declaration (`EmbeddingStatusEnum` and the two columns on `Document`) is not
present under src/, only the alembic migration that adds the DB columns, the
Pydantic schemas and the embedding worker that write them. -/
structure DocRow where
  id : Nat
  tagStatus : Status
  tagStatusUpdatedAt : Nat
  embeddingStatus : Status
  embeddingStatusUpdatedAt : Nat
deriving DecidableEq, Repr

/-- A row of the `document_embeddings` table
(src/app/db/models/document_embedding.py together with the `chunk_text`
field of the DocumentEmbedding Pydantic schema). -/
structure EmbedRow where
  docId : Nat
  vec : List ℚ
  chunkText : String
deriving DecidableEq, Repr

/-- The persistent state touched by the pipeline: the four tables, the Redis
`tags:all` invalidation counter, and a fresh-id supply for new tags. -/
structure State where
  docs : List DocRow
  tags : List TagRow
  links : List (Nat × Nat)
  embeds : List EmbedRow
  cacheDeletes : Nat
  nextTagId : Nat
deriving Repr

def findDoc (st : State) (d : Nat) : Option DocRow :=
  st.docs.find? (fun x => x.id == d)

def findTag (st : State) (t : Nat) : Option TagRow :=
  st.tags.find? (fun x => x.id == t)

/-- `db.query(DocumentTag).filter_by(document_id=.., tag_id=..).first()`. -/
def findLink (st : State) (d t : Nat) : Option (Nat × Nat) :=
  st.links.find? (fun p => p.1 == d && p.2 == t)

def countLink (st : State) (d t : Nat) : Nat :=
  st.links.countP (fun p => p.1 == d && p.2 == t)

def countEmb (st : State) (d : Nat) : Nat :=
  st.embeds.countP (fun r => r.docId == d)

def tagStatusOf (st : State) (d : Nat) : Option Status :=
  (findDoc st d).map (fun x => x.tagStatus)

def embedStatusOf (st : State) (d : Nat) : Option Status :=
  (findDoc st d).map (fun x => x.embeddingStatus)

def tagStatusTimeOf (st : State) (d : Nat) : Option Nat :=
  (findDoc st d).map (fun x => x.tagStatusUpdatedAt)

def embedStatusTimeOf (st : State) (d : Nat) : Option Nat :=
  (findDoc st d).map (fun x => x.embeddingStatusUpdatedAt)

/-- `DocumentInterface.update_document` restricted to the tag-status axis, as
the tagging worker calls it: raises `DocumentNotFoundError` when the document
row is absent, otherwise commits the axis status and its timestamp. -/
def updateDocTagStatus (st : State) (d : Nat) (s : Status) (t : Nat) :
    Except Unit State :=
  match findDoc st d with
  | none => .error ()
  | some _ =>
      .ok { st with docs := st.docs.map (fun x =>
              if x.id == d then { x with tagStatus := s, tagStatusUpdatedAt := t }
              else x) }

/-- `DocumentInterface.update_document` restricted to the embedding-status
axis, as the embedding worker calls it. -/
def updateDocEmbedStatus (st : State) (d : Nat) (s : Status) (t : Nat) :
    Except Unit State :=
  match findDoc st d with
  | none => .error ()
  | some _ =>
      .ok { st with docs := st.docs.map (fun x =>
              if x.id == d then { x with embeddingStatus := s, embeddingStatusUpdatedAt := t }
              else x) }

/-- The workers' `try: update_document(...) except (NotFound, UpdateError):`
pattern for the non-initial status writes: apply the update when it succeeds,
log and keep going otherwise. -/
def trySetTagStatus (st : State) (d : Nat) (s : Status) (t : Nat) : State :=
  match updateDocTagStatus st d s t with
  | .ok st' => st'
  | .error _ => st

def trySetEmbedStatus (st : State) (d : Nat) (s : Status) (t : Nat) : State :=
  match updateDocEmbedStatus st d s t with
  | .ok st' => st'
  | .error _ => st

/-- `GET /documents/{id}` path: `DocumentInterface.get_document_by_id`,
raising `DocumentNotFoundError` when absent. -/
def getDocumentById (st : State) (d : Nat) : Except Unit DocRow :=
  match findDoc st d with
  | none => .error ()
  | some doc => .ok doc

/-- Python's `str.strip()`: drop whitespace from both ends. -/
def pyStrip (s : String) : String :=
  ⟨((s.data.dropWhile Char.isWhitespace).reverse.dropWhile Char.isWhitespace).reverse⟩

/-- `extract_text_from_pdf` (src/app/utils/document_utils.py): the whole body
is wrapped in `try/except Exception: return ""`, and the successful branch
returns the concatenated page text stripped. The parameter is the outcome of
the PyPDF2 read: `.error` means some exception was raised inside the `try`. -/
def extract_text_from_pdf (parse : Except Unit String) : String :=
  match parse with
  | .ok raw => pyStrip raw
  | .error _ => ""

/-- First index (PyTorch `argmax` tie-break) and value of the maximum of a
nonempty score list, fed as head and tail. -/
def bestIdxVal (x : ℚ) (xs : List ℚ) : Nat × ℚ :=
  match xs with
  | [] => (0, x)
  | y :: ys =>
      let p := bestIdxVal y ys
      if p.2 > x then (p.1 + 1, p.2) else (0, x)

theorem bestIdxVal_ge (x : ℚ) (xs : List ℚ) :
    ∀ s ∈ x :: xs, s ≤ (bestIdxVal x xs).2 := by
  induction xs generalizing x with
  | nil =>
      intro s hs
      simp only [List.mem_singleton] at hs
      simp [bestIdxVal, hs]
  | cons y ys ih =>
      intro s hs
      simp only [bestIdxVal]
      by_cases h : (bestIdxVal y ys).2 > x
      · simp only [h, if_pos]
        rcases List.mem_cons.mp hs with h1 | h2
        · exact le_of_lt (h1 ▸ h)
        · exact ih y s h2
      · simp only [h, if_neg, not_false_iff]
        push_neg at h
        rcases List.mem_cons.mp hs with h1 | h2
        · exact le_of_eq h1
        · exact le_trans (ih y s h2) h

theorem bestIdxVal_mem (x : ℚ) (xs : List ℚ) :
    (bestIdxVal x xs).2 ∈ x :: xs := by
  induction xs generalizing x with
  | nil => simp [bestIdxVal]
  | cons y ys ih =>
      simp only [bestIdxVal]
      by_cases h : (bestIdxVal y ys).2 > x
      · simp only [h, if_pos]
        exact List.mem_cons_of_mem x (ih y)
      · simp [h]

/-- Outcome of one iteration of the tagging worker's candidate loop, before
the linking step (src/workers/document_tagging_worker.py, lines 134-152). -/
inductive ResolveResult
  | matched (t : TagRow)
  | created (t : TagRow)
  | creationFailed
deriving DecidableEq, Repr

/-- Tags inserted into the `tags` table by one resolution step. -/
def ResolveResult.newTags : ResolveResult → List TagRow
  | .matched _ => []
  | .created t => [t]
  | .creationFailed => []

/-- One candidate of the tagging worker's dedup loop: against the snapshot of
existing tags, compute cosine scores, take `argmax`, reuse the best match when
its score is `>= 0.5`; otherwise `TagInterface.create_tag` (which raises
`TagCreationError` when the commit fails — `createFails`). -/
def resolveCandidate (sim : String → String → ℚ) (createFails : String → Bool)
    (snapshot : List TagRow) (freshId : Nat) (cand : String) : ResolveResult :=
  let matched : Option TagRow :=
    match snapshot with
    | [] => none
    | t0 :: rest =>
        let p := bestIdxVal (sim cand t0.text) (rest.map (fun t => sim cand t.text))
        if p.2 ≥ mkRat 1 2 then (snapshot.get? p.1).getD t0 else none
  match matched with
  | some t => .matched t
  | none =>
      if createFails cand then .creationFailed
      else .created ⟨freshId, cand⟩

/-- `DocumentTagInterface.link_document_tag`
(src/app/interfaces/document_tag_interface.py): raise NotFound when document
or tag is absent; return the existing link unchanged when present; otherwise
commit exactly one new link (`commitFails` injects the
`DocumentTagLinkError` branch). -/
def link_document_tag (st : State) (d t : Nat) (commitFails : Bool) :
    Except Unit (State × (Nat × Nat)) :=
  if (findDoc st d).isNone then .error ()
  else if (findTag st t).isNone then .error ()
  else
    match findLink st d t with
    | some l => .ok (st, l)
    | none =>
        if commitFails then .error ()
        else .ok ({ st with links := st.links ++ [(d, t)] }, (d, t))

/-- `DocumentEmbeddingInterface.create_chunk_embedding`
(src/app/interfaces/document_embedding_interface.py): NotFound when the
document is absent, `DocumentEmbeddingCreationError` when a record already
exists for the document or when the insert itself fails, else insert one
record. -/
def create_chunk_embedding (st : State) (d : Nat) (vec : List ℚ)
    (chunkText : String) (commitFails : Bool) : Except Unit State :=
  if (findDoc st d).isNone then .error ()
  else if st.embeds.any (fun r => r.docId == d) then .error ()
  else if commitFails then .error ()
  else .ok { st with embeds := st.embeds ++ [⟨d, vec, chunkText⟩] }

/-- The `detail` payload of a queue message:
`{ document_id, s3_url, content_type }`. -/
structure Detail where
  document_id : Nat
  s3_url : String
  content_type : String
deriving DecidableEq, Repr

/-- A raw SQS message body after `json.loads`: `body.get("detail")` may be
missing (malformed message). -/
structure RawMessage where
  detail : Option Detail
deriving DecidableEq, Repr

/-- External collaborators of one tagging-worker run: S3 download result,
PyPDF2 parse result, KeyBERT extraction, SentenceTransformer cosine
similarity, and injected commit failures of `create_tag` /
`link_document_tag`. -/
structure TagEnv where
  download : Option String
  parse : Except Unit String
  keybert : String → List String
  sim : String → String → ℚ
  createFails : String → Bool
  linkFails : Nat → Nat → Bool
  now : Nat

/-- `extract_tags` (src/app/utils/document_utils.py): empty or
whitespace-only text yields `[]`, otherwise KeyBERT keywords. -/
def extract_tags (env : TagEnv) (text : String) : List String :=
  if text = "" ∨ pyStrip text = "" then [] else env.keybert text

/-- The tagging worker's per-candidate loop (lines 134-157): resolve each
candidate against the snapshot taken before the loop, skip candidates whose
creation failed, and link unlinked resolved tags. A link exception escapes
the loop (`.error`) carrying the state already committed. -/
def tagLoop (env : TagEnv) (docId : Nat) (snapshot : List TagRow)
    (cands : List String) (st : State) (assoc : List Nat)
    (newCreated : Bool) : Except State (State × Bool) :=
  match cands with
  | [] => .ok (st, newCreated)
  | c :: rest =>
      match resolveCandidate env.sim env.createFails snapshot st.nextTagId c with
      | .creationFailed => tagLoop env docId snapshot rest st assoc newCreated
      | .matched t =>
          if t.id ∈ assoc then tagLoop env docId snapshot rest st assoc newCreated
          else
            match link_document_tag st docId t.id (env.linkFails docId t.id) with
            | .ok (st2, _) => tagLoop env docId snapshot rest st2 (assoc ++ [t.id]) newCreated
            | .error _ => .error st
      | .created t =>
          let st1 : State :=
            { st with tags := st.tags ++ [t], nextTagId := st.nextTagId + 1 }
          if t.id ∈ assoc then tagLoop env docId snapshot rest st1 assoc true
          else
            match link_document_tag st1 docId t.id (env.linkFails docId t.id) with
            | .ok (st2, _) => tagLoop env docId snapshot rest st2 (assoc ++ [t.id]) true
            | .error _ => .error st1

/-- Body of the tagging worker's `process_message` — everything inside the
outer `try`. `.error s` is an exception reaching the outer
`except Exception`, carrying the state already committed; a handled early
`return` (NotFound, non-PDF, download failure) is an `.ok`. -/
def tagProcessBody (env : TagEnv) (msg : Detail) (st : State) :
    Except State State :=
  match updateDocTagStatus st msg.document_id .processing env.now with
  | .error _ => .ok st
  | .ok st1 =>
      if msg.content_type ≠ "application/pdf" then
        .ok (trySetTagStatus st1 msg.document_id .skipped env.now)
      else
        match env.download with
        | none => .ok (trySetTagStatus st1 msg.document_id .failed env.now)
        | some _file =>
            let text := extract_text_from_pdf env.parse
            let cands := extract_tags env text
            match tagLoop env msg.document_id st1.tags cands st1 [] false with
            | .error sx => .error sx
            | .ok (st2, newCreated) =>
                let st3 := if newCreated then
                    { st2 with cacheDeletes := st2.cacheDeletes + 1 }
                  else st2
                .ok (trySetTagStatus st3 msg.document_id .completed env.now)

/-- `process_message` of the tagging worker: the outer
`except Exception` converts any escaped exception into a `failed` status
write (itself guarded). -/
def tagProcess (env : TagEnv) (msg : Detail) (st : State) : State :=
  match tagProcessBody env msg st with
  | .ok s => s
  | .error s => trySetTagStatus s msg.document_id .failed env.now

/-- External collaborators of one embedding-worker run. -/
structure EmbedEnv where
  download : Option String
  parse : Except Unit String
  embed : String → List ℚ
  createFails : Bool
  now : Nat

/-- Body of the embedding worker's `process_message`
(src/workers/document_embedding_worker.py), inside the outer `try`. -/
def embedProcessBody (env : EmbedEnv) (msg : Detail) (st : State) :
    Except State State :=
  match updateDocEmbedStatus st msg.document_id .processing env.now with
  | .error _ => .ok st
  | .ok st1 =>
      if msg.content_type ≠ "application/pdf" then
        .ok (trySetEmbedStatus st1 msg.document_id .skipped env.now)
      else
        match env.download with
        | none => .ok (trySetEmbedStatus st1 msg.document_id .failed env.now)
        | some _file =>
            let text := extract_text_from_pdf env.parse
            if pyStrip text = "" then
              .ok (trySetEmbedStatus st1 msg.document_id .skipped env.now)
            else
              match create_chunk_embedding st1 msg.document_id (env.embed text)
                  text env.createFails with
              | .error _ => .error st1
              | .ok st2 => .ok (trySetEmbedStatus st2 msg.document_id .completed env.now)

/-- `process_message` of the embedding worker, outer catch included. -/
def embedProcess (env : EmbedEnv) (msg : Detail) (st : State) : State :=
  match embedProcessBody env msg st with
  | .ok s => s
  | .error s => trySetEmbedStatus s msg.document_id .failed env.now

/-- One message of a consumer loop's batch (`run_worker`, both workers):
if `body.get("detail")` is missing, log and `continue` — skipping both the
worker call and `sqs.delete_message`; otherwise run the worker and then
delete. The Boolean records whether the message was deleted. -/
def handleMessage (process : Detail → State → State) (msg : RawMessage)
    (st : State) : State × Bool :=
  match msg.detail with
  | none => (st, false)
  | some d => (process d st, true)

/-- State reached by one `link_document_tag` call as the redelivery argument:
on success the committed state, on a raised error the state at the raise
(unchanged, since the function mutates nothing before its insert). -/
def linkState (d t : Nat) (st : State) : State :=
  match link_document_tag st d t false with
  | .ok (st', _) => st'
  | .error _ => st

/-- The three terminal values of a status axis. -/
def terminalStatus (s : Status) : Prop :=
  s = .completed ∨ s = .skipped ∨ s = .failed

instance : DecidablePred terminalStatus := fun s => by
  unfold terminalStatus; infer_instance

/- ------------------------------------------------------------------ -/
/- Helper lemmas.                                                      -/
/- ------------------------------------------------------------------ -/

theorem find?_map_id_preserving (l : List DocRow) (d : Nat) (g : DocRow → DocRow)
    (hg : ∀ x, (g x).id = x.id) :
    (l.map (fun x => if x.id == d then g x else x)).find? (fun x => x.id == d)
      = (l.find? (fun x => x.id == d)).map g := by
  induction l with
  | nil => simp
  | cons x xs ih =>
      by_cases h : x.id = d
      · simp [List.find?_cons, h, hg]
      · have hb : (x.id == d) = false := by simp [h]
        simp only [List.map_cons, hb, if_neg, Bool.false_eq_true, not_false_iff]
        rw [List.find?_cons, List.find?_cons, hb]
        simpa using ih

theorem updateDocTagStatus_ok_iff (st : State) (d : Nat) (s : Status) (t : Nat) :
    (∃ st', updateDocTagStatus st d s t = .ok st') ↔ (findDoc st d).isSome := by
  unfold updateDocTagStatus
  cases h : findDoc st d <;> simp [h]

theorem updateDocEmbedStatus_ok_iff (st : State) (d : Nat) (s : Status) (t : Nat) :
    (∃ st', updateDocEmbedStatus st d s t = .ok st') ↔ (findDoc st d).isSome := by
  unfold updateDocEmbedStatus
  cases h : findDoc st d <;> simp [h]

theorem updateDocTagStatus_findDoc (st : State) (d : Nat) (s : Status) (t : Nat)
    (st' : State) (h : updateDocTagStatus st d s t = .ok st') :
    findDoc st' d = (findDoc st d).map
      (fun x => { x with tagStatus := s, tagStatusUpdatedAt := t }) := by
  unfold updateDocTagStatus at h
  cases hf : findDoc st d with
  | none => rw [hf] at h; exact absurd h (by simp)
  | some doc =>
      rw [hf] at h
      have := (Except.ok.injEq _ _).mp h.symm
      subst this
      show List.find? (fun x => x.id == d) (st.docs.map (fun x =>
        if x.id == d then { x with tagStatus := s, tagStatusUpdatedAt := t } else x)) = _
      rw [find?_map_id_preserving st.docs d
        (fun x => { x with tagStatus := s, tagStatusUpdatedAt := t }) (fun x => rfl)]
      unfold findDoc at hf
      rw [hf]

theorem updateDocEmbedStatus_findDoc (st : State) (d : Nat) (s : Status) (t : Nat)
    (st' : State) (h : updateDocEmbedStatus st d s t = .ok st') :
    findDoc st' d = (findDoc st d).map
      (fun x => { x with embeddingStatus := s, embeddingStatusUpdatedAt := t }) := by
  unfold updateDocEmbedStatus at h
  cases hf : findDoc st d with
  | none => rw [hf] at h; exact absurd h (by simp)
  | some doc =>
      rw [hf] at h
      have := (Except.ok.injEq _ _).mp h.symm
      subst this
      show List.find? (fun x => x.id == d) (st.docs.map (fun x =>
        if x.id == d then { x with embeddingStatus := s, embeddingStatusUpdatedAt := t } else x)) = _
      rw [find?_map_id_preserving st.docs d
        (fun x => { x with embeddingStatus := s, embeddingStatusUpdatedAt := t }) (fun x => rfl)]
      unfold findDoc at hf
      rw [hf]

theorem trySetTagStatus_tagStatusOf (st : State) (d : Nat) (s : Status) (t : Nat)
    (h : (findDoc st d).isSome) :
    tagStatusOf (trySetTagStatus st d s t) d = some s ∧
    tagStatusTimeOf (trySetTagStatus st d s t) d = some t := by
  unfold trySetTagStatus
  cases hu : updateDocTagStatus st d s t with
  | error e =>
      exfalso
      obtain ⟨st', hst'⟩ := (updateDocTagStatus_ok_iff st d s t).mpr h
      rw [hu] at hst'; exact absurd hst' (by simp)
  | ok st' =>
      have hf := updateDocTagStatus_findDoc st d s t st' hu
      obtain ⟨doc, hdoc⟩ := Option.isSome_iff_exists.mp h
      unfold tagStatusOf tagStatusTimeOf
      rw [hf, hdoc]
      exact ⟨rfl, rfl⟩

theorem trySetEmbedStatus_embedStatusOf (st : State) (d : Nat) (s : Status) (t : Nat)
    (h : (findDoc st d).isSome) :
    embedStatusOf (trySetEmbedStatus st d s t) d = some s ∧
    embedStatusTimeOf (trySetEmbedStatus st d s t) d = some t := by
  unfold trySetEmbedStatus
  cases hu : updateDocEmbedStatus st d s t with
  | error e =>
      exfalso
      obtain ⟨st', hst'⟩ := (updateDocEmbedStatus_ok_iff st d s t).mpr h
      rw [hu] at hst'; exact absurd hst' (by simp)
  | ok st' =>
      have hf := updateDocEmbedStatus_findDoc st d s t st' hu
      obtain ⟨doc, hdoc⟩ := Option.isSome_iff_exists.mp h
      unfold embedStatusOf embedStatusTimeOf
      rw [hf, hdoc]
      exact ⟨rfl, rfl⟩

theorem trySetTagStatus_components (st : State) (d : Nat) (s : Status) (t : Nat) :
    (trySetTagStatus st d s t).tags = st.tags ∧
    (trySetTagStatus st d s t).links = st.links ∧
    (trySetTagStatus st d s t).embeds = st.embeds ∧
    (trySetTagStatus st d s t).cacheDeletes = st.cacheDeletes ∧
    (trySetTagStatus st d s t).nextTagId = st.nextTagId := by
  unfold trySetTagStatus updateDocTagStatus
  cases findDoc st d <;> simp

theorem trySetEmbedStatus_components (st : State) (d : Nat) (s : Status) (t : Nat) :
    (trySetEmbedStatus st d s t).tags = st.tags ∧
    (trySetEmbedStatus st d s t).links = st.links ∧
    (trySetEmbedStatus st d s t).embeds = st.embeds ∧
    (trySetEmbedStatus st d s t).cacheDeletes = st.cacheDeletes ∧
    (trySetEmbedStatus st d s t).nextTagId = st.nextTagId := by
  unfold trySetEmbedStatus updateDocEmbedStatus
  cases findDoc st d <;> simp

theorem updateDocTagStatus_components (st : State) (d : Nat) (s : Status) (t : Nat)
    (st' : State) (h : updateDocTagStatus st d s t = .ok st') :
    st'.tags = st.tags ∧ st'.links = st.links ∧ st'.embeds = st.embeds ∧
    st'.cacheDeletes = st.cacheDeletes ∧ st'.nextTagId = st.nextTagId := by
  unfold updateDocTagStatus at h
  cases hf : findDoc st d <;> rw [hf] at h
  · exact absurd h (by simp)
  · have := (Except.ok.injEq _ _).mp h.symm
    subst this
    exact ⟨rfl, rfl, rfl, rfl, rfl⟩

theorem updateDocEmbedStatus_components (st : State) (d : Nat) (s : Status) (t : Nat)
    (st' : State) (h : updateDocEmbedStatus st d s t = .ok st') :
    st'.tags = st.tags ∧ st'.links = st.links ∧ st'.embeds = st.embeds ∧
    st'.cacheDeletes = st.cacheDeletes ∧ st'.nextTagId = st.nextTagId := by
  unfold updateDocEmbedStatus at h
  cases hf : findDoc st d <;> rw [hf] at h
  · exact absurd h (by simp)
  · have := (Except.ok.injEq _ _).mp h.symm
    subst this
    exact ⟨rfl, rfl, rfl, rfl, rfl⟩

theorem updateDocTagStatus_findDoc_isSome (st : State) (d : Nat) (s : Status)
    (t : Nat) (st' : State) (h : updateDocTagStatus st d s t = .ok st') :
    (findDoc st' d).isSome := by
  have hsm : (findDoc st d).isSome :=
    (updateDocTagStatus_ok_iff st d s t).mp ⟨st', h⟩
  rw [updateDocTagStatus_findDoc st d s t st' h]
  obtain ⟨doc, hdoc⟩ := Option.isSome_iff_exists.mp hsm
  simp [hdoc]

theorem updateDocEmbedStatus_findDoc_isSome (st : State) (d : Nat) (s : Status)
    (t : Nat) (st' : State) (h : updateDocEmbedStatus st d s t = .ok st') :
    (findDoc st' d).isSome := by
  have hsm : (findDoc st d).isSome :=
    (updateDocEmbedStatus_ok_iff st d s t).mp ⟨st', h⟩
  rw [updateDocEmbedStatus_findDoc st d s t st' h]
  obtain ⟨doc, hdoc⟩ := Option.isSome_iff_exists.mp hsm
  simp [hdoc]

/-- Successful linking changes only `links`, appending at most the one pair. -/
theorem link_document_tag_ok_components (st : State) (d t : Nat) (cf : Bool)
    (st' : State) (l : Nat × Nat)
    (h : link_document_tag st d t cf = .ok (st', l)) :
    st'.docs = st.docs ∧ st'.tags = st.tags ∧ st'.embeds = st.embeds ∧
    st'.cacheDeletes = st.cacheDeletes ∧ st'.nextTagId = st.nextTagId ∧
    (st'.links = st.links ∨ st'.links = st.links ++ [(d, t)]) := by
  unfold link_document_tag at h
  by_cases h1 : (findDoc st d).isNone
  · rw [if_pos h1] at h; exact absurd h (by simp)
  · rw [if_neg h1] at h
    by_cases h2 : (findTag st t).isNone
    · rw [if_pos h2] at h; exact absurd h (by simp)
    · rw [if_neg h2] at h
      cases hl : findLink st d t <;> rw [hl] at h
      · cases cf with
        | true => exact absurd h (by simp)
        | false =>
            simp only [if_neg, Bool.false_eq_true, not_false_iff] at h
            have := (Except.ok.injEq _ _).mp h.symm
            rw [Prod.mk.injEq] at this
            obtain ⟨hst, -⟩ := this
            subst hst
            exact ⟨rfl, rfl, rfl, rfl, rfl, Or.inr rfl⟩
      · have := (Except.ok.injEq _ _).mp h.symm
        rw [Prod.mk.injEq] at this
        obtain ⟨hst, -⟩ := this
        subst hst
        exact ⟨rfl, rfl, rfl, rfl, rfl, Or.inl rfl⟩

theorem create_chunk_embedding_ok_components (st : State) (d : Nat)
    (vec : List ℚ) (ct : String) (cf : Bool) (st' : State)
    (h : create_chunk_embedding st d vec ct cf = .ok st') :
    st'.docs = st.docs ∧ st'.tags = st.tags ∧ st'.links = st.links ∧
    st'.cacheDeletes = st.cacheDeletes ∧ st'.nextTagId = st.nextTagId ∧
    st'.embeds = st.embeds ++ [⟨d, vec, ct⟩] ∧
    st.embeds.any (fun r => r.docId == d) = false := by
  unfold create_chunk_embedding at h
  by_cases h1 : (findDoc st d).isNone
  · rw [if_pos h1] at h; exact absurd h (by simp)
  · rw [if_neg h1] at h
    by_cases h2 : st.embeds.any (fun r => r.docId == d) = true
    · rw [if_pos h2] at h; exact absurd h (by simp)
    · rw [if_neg h2] at h
      cases cf with
      | true => exact absurd h (by simp)
      | false =>
          simp only [if_neg, Bool.false_eq_true, not_false_iff] at h
          have := (Except.ok.injEq _ _).mp h.symm
          subst this
          exact ⟨rfl, rfl, rfl, rfl, rfl, rfl, by simpa using h2⟩

theorem bestIdxVal_get (x : ℚ) (xs : List ℚ) :
    (x :: xs).get? (bestIdxVal x xs).1 = some (bestIdxVal x xs).2 := by
  induction xs generalizing x with
  | nil => simp [bestIdxVal]
  | cons y ys ih =>
      simp only [bestIdxVal]
      by_cases h : (bestIdxVal y ys).2 > x
      · simp only [h, if_pos]
        exact ih y
      · simp [h]

/-- Through a completed candidate loop: documents, embeddings and the cache
counter are untouched, tags only grow, and the `new_tag_created` flag is true
exactly when it was already true or some tag was inserted. -/
theorem tagLoop_ok_inv (env : TagEnv) (docId : Nat) (snap : List TagRow)
    (cands : List String) :
    ∀ st assoc nc st2 nc2,
      tagLoop env docId snap cands st assoc nc = .ok (st2, nc2) →
      st2.docs = st.docs ∧ st2.embeds = st.embeds ∧
      st2.cacheDeletes = st.cacheDeletes ∧
      st.tags.length ≤ st2.tags.length ∧
      (nc2 = true ↔ (nc = true ∨ st.tags.length < st2.tags.length)) := by
  induction cands with
  | nil =>
      intro st assoc nc st2 nc2 h
      simp only [tagLoop] at h
      have h1 := (Except.ok.injEq _ _).mp h.symm
      rw [Prod.mk.injEq] at h1
      obtain ⟨h2, h3⟩ := h1
      subst h2; subst h3
      exact ⟨rfl, rfl, rfl, le_refl _, by simp⟩
  | cons c rest ih =>
      intro st assoc nc st2 nc2 h
      simp only [tagLoop] at h
      split at h
      · -- creationFailed
        exact ih st assoc nc st2 nc2 h
      · -- matched t
        rename_i t hres
        split at h
        · exact ih st assoc nc st2 nc2 h
        · split at h
          · rename_i p st2' snd hlink
            obtain ⟨hdocs, htags, hembeds, hcache, -, -⟩ :=
              link_document_tag_ok_components st docId t.id _ st2' snd hlink
            obtain ⟨d1, e1, c1, l1, i1⟩ := ih st2' (assoc ++ [t.id]) nc st2 nc2 h
            refine ⟨d1.trans hdocs, e1.trans hembeds, c1.trans hcache, ?_, ?_⟩
            · rw [← htags]; exact l1
            · rw [← htags]; exact i1
          · exact absurd h (by simp)
      · -- created t
        rename_i t hres
        split at h
        · obtain ⟨d1, e1, c1, l1, i1⟩ := ih _ assoc true st2 nc2 h
          refine ⟨d1, e1, c1, ?_, ?_⟩
          · calc st.tags.length ≤ st.tags.length + 1 := Nat.le_succ _
              _ = (st.tags ++ [t]).length := by simp
              _ ≤ st2.tags.length := l1
          · constructor
            · intro _
              right
              calc st.tags.length < st.tags.length + 1 := Nat.lt_succ_self _
                _ = (st.tags ++ [t]).length := by simp
                _ ≤ st2.tags.length := l1
            · intro _
              exact i1.mpr (Or.inl rfl)
        · split at h
          · rename_i p st2' snd hlink
            obtain ⟨hdocs, htags, hembeds, hcache, -, -⟩ :=
              link_document_tag_ok_components _ docId t.id _ st2' snd hlink
            obtain ⟨d1, e1, c1, l1, i1⟩ := ih st2' (assoc ++ [t.id]) true st2 nc2 h
            have htags2 : st2'.tags = st.tags ++ [t] := htags
            have hlen : (st.tags ++ [t]).length ≤ st2.tags.length := by
              rw [← htags2]; exact l1
            refine ⟨d1.trans hdocs, e1.trans hembeds, c1.trans hcache, ?_, ?_⟩
            · calc st.tags.length ≤ st.tags.length + 1 := Nat.le_succ _
                _ = (st.tags ++ [t]).length := by simp
                _ ≤ st2.tags.length := hlen
            · constructor
              · intro _
                right
                calc st.tags.length < st.tags.length + 1 := Nat.lt_succ_self _
                  _ = (st.tags ++ [t]).length := by simp
                  _ ≤ st2.tags.length := hlen
              · intro _
                exact i1.mpr (Or.inl rfl)
          · exact absurd h (by simp)

/-- Through a candidate loop aborted by a link exception: documents,
embeddings and the cache counter of the state carried by the exception are
those at loop entry. -/
theorem tagLoop_error_inv (env : TagEnv) (docId : Nat) (snap : List TagRow)
    (cands : List String) :
    ∀ st assoc nc se,
      tagLoop env docId snap cands st assoc nc = .error se →
      se.docs = st.docs ∧ se.embeds = st.embeds ∧
      se.cacheDeletes = st.cacheDeletes := by
  induction cands with
  | nil =>
      intro st assoc nc se h
      simp only [tagLoop] at h
      exact absurd h (by simp)
  | cons c rest ih =>
      intro st assoc nc se h
      simp only [tagLoop] at h
      split at h
      · -- creationFailed
        exact ih st assoc nc se h
      · -- matched t
        rename_i t hres
        split at h
        · exact ih st assoc nc se h
        · split at h
          · rename_i p st2' snd hlink
            obtain ⟨hdocs, htags, hembeds, hcache, -, -⟩ :=
              link_document_tag_ok_components st docId t.id _ st2' snd hlink
            obtain ⟨d1, e1, c1⟩ := ih st2' (assoc ++ [t.id]) nc se h
            exact ⟨d1.trans hdocs, e1.trans hembeds, c1.trans hcache⟩
          · have h1 := (Except.error.injEq _ _).mp h.symm
            subst h1
            exact ⟨rfl, rfl, rfl⟩
      · -- created t
        rename_i t hres
        split at h
        · exact ih { st with tags := st.tags ++ [t], nextTagId := st.nextTagId + 1 }
            assoc true se h
        · split at h
          · rename_i p st2' snd hlink
            obtain ⟨hdocs, htags, hembeds, hcache, -, -⟩ :=
              link_document_tag_ok_components _ docId t.id _ st2' snd hlink
            obtain ⟨d1, e1, c1⟩ := ih st2' (assoc ++ [t.id]) true se h
            exact ⟨d1.trans hdocs, e1.trans hembeds, c1.trans hcache⟩
          · have h1 := (Except.error.injEq _ _).mp h.symm
            subst h1
            exact ⟨rfl, rfl, rfl⟩

theorem findLink_none_countLink (st : State) (d t : Nat)
    (h : findLink st d t = none) : countLink st d t = 0 := by
  unfold countLink
  rw [List.countP_eq_zero]
  intro a ha
  exact List.find?_eq_none.mp h a ha

theorem findLink_some_countLink_pos (st : State) (d t : Nat) (l : Nat × Nat)
    (h : findLink st d t = some l) : 0 < countLink st d t := by
  unfold findLink at h
  unfold countLink
  rw [List.countP_pos_iff]
  have hpl := List.find?_some h
  exact ⟨l, List.mem_of_find?_eq_some h, hpl⟩

theorem countLink_append_pair (st : State) (a b d t : Nat) :
    countLink { st with links := st.links ++ [(a, b)] } d t
      = countLink st d t + (if a == d && b == t then 1 else 0) := by
  unfold countLink
  rw [List.countP_append]
  simp [List.countP_cons]

/-- One successful `link_document_tag` leaves exactly one link for the pair
and touches no other table; the linked state still contains the document and
the tag. -/
theorem linkState_count (st : State) (d t : Nat)
    (hd : (findDoc st d).isSome) (ht : (findTag st t).isSome)
    (hc : countLink st d t ≤ 1) :
    countLink (linkState d t st) d t = 1 ∧
    (findDoc (linkState d t st) d).isSome ∧
    (findTag (linkState d t st) t).isSome := by
  obtain ⟨doc, hdoc⟩ := Option.isSome_iff_exists.mp hd
  obtain ⟨tg, htg⟩ := Option.isSome_iff_exists.mp ht
  cases hl : findLink st d t with
  | some l =>
      have hstate : linkState d t st = st := by
        unfold linkState link_document_tag
        rw [hdoc, htg, hl]
        simp
      rw [hstate]
      have hpos := findLink_some_countLink_pos st d t l hl
      exact ⟨le_antisymm hc hpos, hd, ht⟩
  | none =>
      have hz := findLink_none_countLink st d t hl
      have hstate : linkState d t st = { st with links := st.links ++ [(d, t)] } := by
        unfold linkState link_document_tag
        rw [hdoc, htg, hl]
        simp
      rw [hstate]
      refine ⟨?_, hd, ht⟩
      rw [countLink_append_pair, hz]
      simp

theorem resolveCandidate_nil (sim : String → String → ℚ) (cf : String → Bool)
    (fid : Nat) (cand : String) :
    resolveCandidate sim cf [] fid cand =
      (if cf cand then .creationFailed else .created ⟨fid, cand⟩) := by
  by_cases hcf : cf cand <;> simp [resolveCandidate, hcf]

theorem resolveCandidate_cons (sim : String → String → ℚ) (cf : String → Bool)
    (t0 : TagRow) (rest : List TagRow) (fid : Nat) (cand : String) :
    resolveCandidate sim cf (t0 :: rest) fid cand =
      (if (bestIdxVal (sim cand t0.text) (rest.map (fun v => sim cand v.text))).2
            ≥ mkRat 1 2 then
        .matched (((t0 :: rest).get?
          (bestIdxVal (sim cand t0.text) (rest.map (fun v => sim cand v.text))).1).getD t0)
      else if cf cand then .creationFailed else .created ⟨fid, cand⟩) := by
  by_cases hcnd : (bestIdxVal (sim cand t0.text)
      (rest.map (fun v => sim cand v.text))).2 ≥ mkRat 1 2
  · simp [resolveCandidate, hcnd]
  · simp [resolveCandidate, hcnd]

/- ------------------------------------------------------------------ -/
/- Claim theorems.                                                     -/
/- ------------------------------------------------------------------ -/

/-- C1: in the tagging worker's resolution step, a candidate whose highest
cosine similarity against the (nonempty) snapshot of existing tags is at
least 0.5 reuses the best-matching existing tag and creates no new tag; when
the snapshot is empty or every similarity is below 0.5 (and the insert
itself does not fail), exactly one new tag whose text is the candidate
string is created. -/
theorem claim_C1_tag_resolution (sim : String → String → ℚ) (cf : String → Bool)
    (snapshot : List TagRow) (fid : Nat) (cand : String) :
    ((snapshot ≠ [] ∧ ∃ u ∈ snapshot, mkRat 1 2 ≤ sim cand u.text) →
      ∃ t ∈ snapshot,
        resolveCandidate sim cf snapshot fid cand = .matched t ∧
        (∀ u ∈ snapshot, sim cand u.text ≤ sim cand t.text) ∧
        (resolveCandidate sim cf snapshot fid cand).newTags = [])
    ∧ ((snapshot = [] ∨ ∀ u ∈ snapshot, sim cand u.text < mkRat 1 2) →
        cf cand = false →
        (resolveCandidate sim cf snapshot fid cand).newTags = [⟨fid, cand⟩]) := by
  constructor
  · rintro ⟨hne, u, hu, huhalf⟩
    cases snapshot with
    | nil => exact absurd rfl hne
    | cons t0 rest =>
        have hge := bestIdxVal_ge (sim cand t0.text)
          (rest.map (fun v => sim cand v.text))
        have hget := bestIdxVal_get (sim cand t0.text)
          (rest.map (fun v => sim cand v.text))
        have hcond : (bestIdxVal (sim cand t0.text)
            (rest.map (fun v => sim cand v.text))).2 ≥ mkRat 1 2 := by
          rcases List.mem_cons.mp hu with h1 | h2
          · subst h1
            exact le_trans huhalf (hge _ (List.mem_cons_self _ _))
          · exact le_trans huhalf
              (hge _ (List.mem_cons_of_mem _ (List.mem_map_of_mem _ h2)))
        have hget2 : ((t0 :: rest).map (fun v => sim cand v.text)).get?
            (bestIdxVal (sim cand t0.text) (rest.map (fun v => sim cand v.text))).1
            = some ((bestIdxVal (sim cand t0.text)
                (rest.map (fun v => sim cand v.text))).2) := hget
        rw [List.get?_map] at hget2
        obtain ⟨u0, hu0, hfu0⟩ := Option.map_eq_some'.mp hget2
        have hres : resolveCandidate sim cf (t0 :: rest) fid cand = .matched u0 := by
          rw [resolveCandidate_cons, if_pos hcond, hu0, Option.getD_some]
        refine ⟨u0, List.get?_mem hu0, hres, ?_, by rw [hres]; rfl⟩
        intro v hv
        rw [hfu0]
        rcases List.mem_cons.mp hv with h1 | h2
        · subst h1
          exact hge _ (List.mem_cons_self _ _)
        · exact hge _ (List.mem_cons_of_mem _ (List.mem_map_of_mem _ h2))
  · rintro (hnil | hlt) hcf
    · subst hnil
      rw [resolveCandidate_nil]
      simp [hcf, ResolveResult.newTags]
    · cases snapshot with
      | nil =>
          rw [resolveCandidate_nil]
          simp [hcf, ResolveResult.newTags]
      | cons t0 rest =>
          have hmem := bestIdxVal_mem (sim cand t0.text)
            (rest.map (fun v => sim cand v.text))
          have hmem2 : (bestIdxVal (sim cand t0.text)
              (rest.map (fun v => sim cand v.text))).2
              ∈ (t0 :: rest).map (fun v => sim cand v.text) := hmem
          obtain ⟨u, hu, hfu⟩ := List.mem_map.mp hmem2
          have hlt2 : (bestIdxVal (sim cand t0.text)
              (rest.map (fun v => sim cand v.text))).2 < mkRat 1 2 := by
            rw [← hfu]
            exact hlt u hu
          rw [resolveCandidate_cons, if_neg (not_le.mpr hlt2)]
          simp [hcf, ResolveResult.newTags]

/-- C1 witness: with one existing tag at similarity 3/4, the candidate is
resolved to it and no tag is created; with an empty snapshot, one tag with
the candidate's text is created. -/
theorem claim_C1_tag_resolution_witness :
    (∃ t ∈ [TagRow.mk 7 "machine learning"],
        resolveCandidate (fun _ _ => mkRat 3 4) (fun _ => false)
          [TagRow.mk 7 "machine learning"] 9 "Machine-Learning" = .matched t ∧
        (∀ u ∈ [TagRow.mk 7 "machine learning"],
          (fun _ _ => mkRat 3 4) "Machine-Learning" u.text
            ≤ (fun _ _ => mkRat 3 4) "Machine-Learning" t.text) ∧
        (resolveCandidate (fun _ _ => mkRat 3 4) (fun _ => false)
          [TagRow.mk 7 "machine learning"] 9 "Machine-Learning").newTags = [])
    ∧ (resolveCandidate (fun _ _ => mkRat 3 4) (fun _ => false)
          [] 9 "graph theory").newTags = [⟨9, "graph theory"⟩] := by
  constructor
  · exact (claim_C1_tag_resolution (fun _ _ => mkRat 3 4) (fun _ => false)
      [TagRow.mk 7 "machine learning"] 9 "Machine-Learning").1
      ⟨by decide, ⟨7, "machine learning"⟩, by decide, by decide⟩
  · exact (claim_C1_tag_resolution (fun _ _ => mkRat 3 4) (fun _ => false)
      [] 9 "graph theory").2 (Or.inl rfl) rfl

/-- C2: `link_document_tag` is idempotent per (document, tag) pair: when the
link already exists it returns it and changes nothing; when absent it commits
exactly one link; and re-running it any positive number of times (message
redelivery) leaves exactly one link for the pair. -/
theorem claim_C2_link_idempotent (st : State) (d t : Nat)
    (hd : (findDoc st d).isSome) (ht : (findTag st t).isSome) :
    ((∀ l, findLink st d t = some l →
        link_document_tag st d t false = .ok (st, l))
    ∧ (findLink st d t = none →
        link_document_tag st d t false =
          .ok ({ st with links := st.links ++ [(d, t)] }, (d, t)) ∧
        countLink { st with links := st.links ++ [(d, t)] } d t
          = countLink st d t + 1)
    ∧ (countLink st d t ≤ 1 →
        ∀ n : Nat, countLink ((linkState d t)^[n + 1] st) d t = 1)) := by
  obtain ⟨doc, hdoc⟩ := Option.isSome_iff_exists.mp hd
  obtain ⟨tg, htg⟩ := Option.isSome_iff_exists.mp ht
  refine ⟨?_, ?_, ?_⟩
  · intro l hl
    unfold link_document_tag
    rw [hdoc, htg, hl]
    simp
  · intro hl
    constructor
    · unfold link_document_tag
      rw [hdoc, htg, hl]
      simp
    · rw [countLink_append_pair, findLink_none_countLink st d t hl]
      simp
  · intro hc n
    induction n with
    | zero =>
        rw [Function.iterate_one]
        exact (linkState_count st d t hd ht hc).1
    | succ m ihm =>
        have hstep := linkState_count st d t hd ht hc
        have : ∀ k : Nat,
            countLink ((linkState d t)^[k + 1] st) d t = 1 ∧
            (findDoc ((linkState d t)^[k + 1] st) d).isSome ∧
            (findTag ((linkState d t)^[k + 1] st) t).isSome := by
          intro k
          induction k with
          | zero =>
              rw [Function.iterate_one]
              exact linkState_count st d t hd ht hc
          | succ j ihj =>
              obtain ⟨hc1, hd1, ht1⟩ := ihj
              rw [Function.iterate_succ_apply']
              exact linkState_count _ d t hd1 ht1 (le_of_eq hc1)
        exact (this (m + 1)).1

/-- C2 witness: in a one-document, one-tag state with no links, a first call
creates the single link and a second call (same message redelivered) leaves
exactly one link. -/
theorem claim_C2_link_idempotent_witness :
    countLink ((linkState 1 4)^[2]
      ⟨[⟨1, .pending, 0, .pending, 0⟩], [⟨4, "ml"⟩], [], [], 0, 5⟩) 1 4 = 1 := by
  exact (claim_C2_link_idempotent
    ⟨[⟨1, .pending, 0, .pending, 0⟩], [⟨4, "ml"⟩], [], [], 0, 5⟩ 1 4
    (by decide) (by decide)).2.2 (by decide) 1

/-- C4: the document row carries an embedding-status field ranging over
exactly {pending, processing, completed, failed, skipped} plus its
timestamp, and every status transition the embedding worker writes through
`update_document` is stored on the row and observable through the
document query API (`get_document_by_id`). -/
theorem claim_C4_embedding_status_persisted :
    (∀ s : Status, s = .pending ∨ s = .processing ∨ s = .completed ∨
        s = .failed ∨ s = .skipped)
    ∧ (∀ (st : State) (d : Nat) (s : Status) (t : Nat) (st' : State),
        updateDocEmbedStatus st d s t = .ok st' →
        embedStatusOf st' d = some s ∧ embedStatusTimeOf st' d = some t ∧
        ∃ doc, getDocumentById st' d = .ok doc ∧
          doc.embeddingStatus = s ∧ doc.embeddingStatusUpdatedAt = t) := by
  constructor
  · intro s
    cases s
    · exact Or.inl rfl
    · exact Or.inr (Or.inl rfl)
    · exact Or.inr (Or.inr (Or.inl rfl))
    · exact Or.inr (Or.inr (Or.inr (Or.inl rfl)))
    · exact Or.inr (Or.inr (Or.inr (Or.inr rfl)))
  · intro st d s t st' h
    have hsm : (findDoc st d).isSome :=
      (updateDocEmbedStatus_ok_iff st d s t).mp ⟨st', h⟩
    obtain ⟨doc, hdoc⟩ := Option.isSome_iff_exists.mp hsm
    have hf := updateDocEmbedStatus_findDoc st d s t st' h
    rw [hdoc] at hf
    refine ⟨?_, ?_, ?_⟩
    · unfold embedStatusOf
      rw [hf]
      rfl
    · unfold embedStatusTimeOf
      rw [hf]
      rfl
    · refine ⟨{ doc with embeddingStatus := s, embeddingStatusUpdatedAt := t },
        ?_, rfl, rfl⟩
      unfold getDocumentById
      rw [hf]
      rfl

/-- C4 witness: writing `completed` at time 9 onto a pending document stores
the value and the query API returns it. -/
theorem claim_C4_embedding_status_persisted_witness :
    embedStatusOf (trySetEmbedStatus
      ⟨[⟨1, .pending, 0, .pending, 0⟩], [], [], [], 0, 0⟩ 1 .completed 9) 1
      = some .completed := by
  have h := (claim_C4_embedding_status_persisted).2
    ⟨[⟨1, .pending, 0, .pending, 0⟩], [], [], [], 0, 0⟩ 1 .completed 9
    (trySetEmbedStatus ⟨[⟨1, .pending, 0, .pending, 0⟩], [], [], [], 0, 0⟩
      1 .completed 9) rfl
  exact h.1

theorem findDoc_eq_of_docs (st st' : State) (h : st'.docs = st.docs) (d : Nat) :
    findDoc st' d = findDoc st d := by
  unfold findDoc
  rw [h]

theorem tagProcess_notFound (env : TagEnv) (msg : Detail) (st : State)
    (h : findDoc st msg.document_id = none) : tagProcess env msg st = st := by
  unfold tagProcess tagProcessBody updateDocTagStatus
  rw [h]

theorem embedProcess_notFound (env : EmbedEnv) (msg : Detail) (st : State)
    (h : findDoc st msg.document_id = none) : embedProcess env msg st = st := by
  unfold embedProcess embedProcessBody updateDocEmbedStatus
  rw [h]

theorem tagProcess_terminal (env : TagEnv) (msg : Detail) (st : State)
    (h : (findDoc st msg.document_id).isSome) :
    ∃ s, tagStatusOf (tagProcess env msg st) msg.document_id = some s ∧
      terminalStatus s := by
  obtain ⟨st1, hupd⟩ :=
    (updateDocTagStatus_ok_iff st msg.document_id .processing env.now).mpr h
  have h1 : (findDoc st1 msg.document_id).isSome :=
    updateDocTagStatus_findDoc_isSome _ _ _ _ _ hupd
  unfold tagProcess tagProcessBody
  rw [hupd]
  dsimp only
  by_cases hct : msg.content_type ≠ "application/pdf"
  · rw [if_pos hct]
    exact ⟨.skipped, (trySetTagStatus_tagStatusOf st1 _ _ _ h1).1,
      Or.inr (Or.inl rfl)⟩
  · rw [if_neg hct]
    cases hdl : env.download with
    | none =>
        exact ⟨.failed, (trySetTagStatus_tagStatusOf st1 _ _ _ h1).1,
          Or.inr (Or.inr rfl)⟩
    | some file =>
        cases hloop : tagLoop env msg.document_id st1.tags
            (extract_tags env (extract_text_from_pdf env.parse)) st1 [] false with
        | error sx =>
            obtain ⟨hdocs, -, -⟩ :=
              tagLoop_error_inv env msg.document_id st1.tags _ st1 [] false sx hloop
            have h2 : (findDoc sx msg.document_id).isSome := by
              rw [findDoc_eq_of_docs st1 sx hdocs]
              exact h1
            exact ⟨.failed, (trySetTagStatus_tagStatusOf sx _ _ _ h2).1,
              Or.inr (Or.inr rfl)⟩
        | ok p =>
            obtain ⟨st2, nc⟩ := p
            obtain ⟨hdocs, -, -, -, -⟩ :=
              tagLoop_ok_inv env msg.document_id st1.tags _ st1 [] false st2 nc hloop
            have h2 : (findDoc st2 msg.document_id).isSome := by
              rw [findDoc_eq_of_docs st1 st2 hdocs]
              exact h1
            cases nc with
            | true =>
                exact ⟨.completed,
                  (trySetTagStatus_tagStatusOf
                    { st2 with cacheDeletes := st2.cacheDeletes + 1 } _ _ _ h2).1,
                  Or.inl rfl⟩
            | false =>
                exact ⟨.completed, (trySetTagStatus_tagStatusOf st2 _ _ _ h2).1,
                  Or.inl rfl⟩

theorem embedProcess_terminal (env : EmbedEnv) (msg : Detail) (st : State)
    (h : (findDoc st msg.document_id).isSome) :
    ∃ s, embedStatusOf (embedProcess env msg st) msg.document_id = some s ∧
      terminalStatus s := by
  obtain ⟨st1, hupd⟩ :=
    (updateDocEmbedStatus_ok_iff st msg.document_id .processing env.now).mpr h
  have h1 : (findDoc st1 msg.document_id).isSome :=
    updateDocEmbedStatus_findDoc_isSome _ _ _ _ _ hupd
  unfold embedProcess embedProcessBody
  rw [hupd]
  dsimp only
  by_cases hct : msg.content_type ≠ "application/pdf"
  · rw [if_pos hct]
    exact ⟨.skipped, (trySetEmbedStatus_embedStatusOf st1 _ _ _ h1).1,
      Or.inr (Or.inl rfl)⟩
  · rw [if_neg hct]
    cases hdl : env.download with
    | none =>
        exact ⟨.failed, (trySetEmbedStatus_embedStatusOf st1 _ _ _ h1).1,
          Or.inr (Or.inr rfl)⟩
    | some file =>
        by_cases hemp : pyStrip (extract_text_from_pdf env.parse) = ""
        · rw [if_pos hemp]
          exact ⟨.skipped, (trySetEmbedStatus_embedStatusOf st1 _ _ _ h1).1,
            Or.inr (Or.inl rfl)⟩
        · rw [if_neg hemp]
          cases hcr : create_chunk_embedding st1 msg.document_id
              (env.embed (extract_text_from_pdf env.parse))
              (extract_text_from_pdf env.parse) env.createFails with
          | error e =>
              exact ⟨.failed, (trySetEmbedStatus_embedStatusOf st1 _ _ _ h1).1,
                Or.inr (Or.inr rfl)⟩
          | ok st2 =>
              obtain ⟨hdocs, -, -, -, -, -, -⟩ :=
                create_chunk_embedding_ok_components st1 msg.document_id _ _ _ st2 hcr
              have h2 : (findDoc st2 msg.document_id).isSome := by
                rw [findDoc_eq_of_docs st1 st2 hdocs]
                exact h1
              exact ⟨.completed, (trySetEmbedStatus_embedStatusOf st2 _ _ _ h2).1,
                Or.inl rfl⟩

/-- C3: with the document present (so status writes succeed), a single
invocation of either worker always leaves its own status axis in one of
{completed, skipped, failed} — never `processing`; and when the document is
missing at the initial pending-to-processing write, the worker returns with
the state completely unchanged. -/
theorem claim_C3_state_machine_totality (tenv : TagEnv) (eenv : EmbedEnv)
    (msg : Detail) (st : State) :
    (findDoc st msg.document_id = none →
      tagProcess tenv msg st = st ∧ embedProcess eenv msg st = st)
    ∧ ((findDoc st msg.document_id).isSome →
      (∃ s, tagStatusOf (tagProcess tenv msg st) msg.document_id = some s ∧
        terminalStatus s)
      ∧ (∃ s, embedStatusOf (embedProcess eenv msg st) msg.document_id = some s ∧
        terminalStatus s)) := by
  constructor
  · intro h
    exact ⟨tagProcess_notFound tenv msg st h, embedProcess_notFound eenv msg st h⟩
  · intro h
    exact ⟨tagProcess_terminal tenv msg st h, embedProcess_terminal eenv msg st h⟩

/-- C3 witness: on a one-document state, a PDF message with a successful
download ends both axes in a terminal status; on an empty state, both workers
are no-ops. -/
theorem claim_C3_state_machine_totality_witness :
    ((∃ s, tagStatusOf
        (tagProcess ⟨some "f", .ok "body text", fun _ => ["ai"], fun _ _ => 1,
          fun _ => false, fun _ _ => false, 3⟩
          ⟨1, "s3://b/k", "application/pdf"⟩
          ⟨[⟨1, .pending, 0, .pending, 0⟩], [], [], [], 0, 0⟩) 1 = some s ∧
        terminalStatus s)
    ∧ (∃ s, embedStatusOf
        (embedProcess ⟨some "f", .ok "body text", fun _ => [1], false, 3⟩
          ⟨1, "s3://b/k", "application/pdf"⟩
          ⟨[⟨1, .pending, 0, .pending, 0⟩], [], [], [], 0, 0⟩) 1 = some s ∧
        terminalStatus s))
    ∧ tagProcess ⟨some "f", .ok "body text", fun _ => ["ai"], fun _ _ => 1,
          fun _ => false, fun _ _ => false, 3⟩
        ⟨1, "s3://b/k", "application/pdf"⟩ ⟨[], [], [], [], 0, 0⟩
      = ⟨[], [], [], [], 0, 0⟩ := by
  constructor
  · exact (claim_C3_state_machine_totality
      ⟨some "f", .ok "body text", fun _ => ["ai"], fun _ _ => 1,
        fun _ => false, fun _ _ => false, 3⟩
      ⟨some "f", .ok "body text", fun _ => [1], false, 3⟩
      ⟨1, "s3://b/k", "application/pdf"⟩
      ⟨[⟨1, .pending, 0, .pending, 0⟩], [], [], [], 0, 0⟩).2 (by decide)
  · exact ((claim_C3_state_machine_totality
      ⟨some "f", .ok "body text", fun _ => ["ai"], fun _ _ => 1,
        fun _ => false, fun _ _ => false, 3⟩
      ⟨some "f", .ok "body text", fun _ => [1], false, 3⟩
      ⟨1, "s3://b/k", "application/pdf"⟩
      ⟨[], [], [], [], 0, 0⟩).1 (by decide)).1

/-- C5: for a well-formed message, each worker's `process_message` is total —
a body that raises is caught at the worker boundary and converted into a
`failed` status write, a successful body's state is returned unchanged — and
the consumer loop deletes the message unconditionally after the worker call
returns, whatever the internal outcome was. -/
theorem claim_C5_no_raise_always_ack (tenv : TagEnv) (eenv : EmbedEnv)
    (raw : RawMessage) (st : State) (d : Detail) (hdet : raw.detail = some d) :
    (handleMessage (tagProcess tenv) raw st).2 = true
    ∧ (handleMessage (embedProcess eenv) raw st).2 = true
    ∧ (∀ s, tagProcessBody tenv d st = .ok s → tagProcess tenv d st = s)
    ∧ (∀ s, tagProcessBody tenv d st = .error s →
        tagProcess tenv d st = trySetTagStatus s d.document_id .failed tenv.now)
    ∧ (∀ s, embedProcessBody eenv d st = .ok s → embedProcess eenv d st = s)
    ∧ (∀ s, embedProcessBody eenv d st = .error s →
        embedProcess eenv d st = trySetEmbedStatus s d.document_id .failed eenv.now) := by
  refine ⟨?_, ?_, ?_, ?_, ?_, ?_⟩
  · unfold handleMessage
    rw [hdet]
  · unfold handleMessage
    rw [hdet]
  · intro s hs
    unfold tagProcess
    rw [hs]
  · intro s hs
    unfold tagProcess
    rw [hs]
  · intro s hs
    unfold embedProcess
    rw [hs]
  · intro s hs
    unfold embedProcess
    rw [hs]

/-- C5 witness: a concrete well-formed message is acknowledged by both
consumer loops. -/
theorem claim_C5_no_raise_always_ack_witness :
    (handleMessage
      (tagProcess ⟨none, .error (), fun _ => [], fun _ _ => 0,
        fun _ => false, fun _ _ => false, 1⟩)
      ⟨some ⟨1, "s3://b/k", "application/pdf"⟩⟩
      ⟨[⟨1, .pending, 0, .pending, 0⟩], [], [], [], 0, 0⟩).2 = true := by
  exact (claim_C5_no_raise_always_ack
    ⟨none, .error (), fun _ => [], fun _ _ => 0, fun _ => false,
      fun _ _ => false, 1⟩
    ⟨none, .error (), fun _ => [1], false, 1⟩
    ⟨some ⟨1, "s3://b/k", "application/pdf"⟩⟩
    ⟨[⟨1, .pending, 0, .pending, 0⟩], [], [], [], 0, 0⟩
    ⟨1, "s3://b/k", "application/pdf"⟩ rfl).1

/-- C6 counterexample: a malformed message (missing `detail`) hits the
`continue` in `run_worker` before `sqs.delete_message`, so it is NOT deleted
— refuting the claim that the loop still acknowledges it. -/
theorem claim_C6_counterexample :
    (handleMessage
        (tagProcess ⟨none, .error (), fun _ => [], fun _ _ => 0,
          fun _ => false, fun _ _ => false, 1⟩)
        ⟨none⟩ ⟨[], [], [], [], 0, 0⟩).2 = false
    ∧ ¬ (handleMessage
        (embedProcess ⟨none, .error (), fun _ => [1], false, 1⟩)
        ⟨none⟩ ⟨[], [], [], [], 0, 0⟩).2 = true := by
  exact ⟨rfl, by decide⟩

/-- C6 (amended): a received message whose parsed body lacks the `detail`
payload is skipped — no worker call and, contrary to the claim, NO deletion:
the loop `continue`s without acknowledging, leaving the message on the queue
for redelivery. -/
theorem claim_C6_malformed_not_deleted (p : Detail → State → State)
    (raw : RawMessage) (st : State) (h : raw.detail = none) :
    handleMessage p raw st = (st, false) := by
  unfold handleMessage
  rw [h]

/-- C6 amended witness. -/
theorem claim_C6_malformed_not_deleted_witness :
    handleMessage
      (tagProcess ⟨none, .error (), fun _ => [], fun _ _ => 0,
        fun _ => false, fun _ _ => false, 1⟩)
      ⟨none⟩ ⟨[], [], [], [], 0, 0⟩ = (⟨[], [], [], [], 0, 0⟩, false) := by
  exact claim_C6_malformed_not_deleted
    (tagProcess ⟨none, .error (), fun _ => [], fun _ _ => 0,
      fun _ => false, fun _ _ => false, 1⟩)
    ⟨none⟩ ⟨[], [], [], [], 0, 0⟩ rfl

theorem create_chunk_embedding_error_of_exists (st : State) (d : Nat)
    (vec : List ℚ) (ct : String) (cf : Bool)
    (h : st.embeds.any (fun r => r.docId == d) = true) :
    ∃ e, create_chunk_embedding st d vec ct cf = .error e := by
  unfold create_chunk_embedding
  by_cases h1 : (findDoc st d).isNone
  · rw [if_pos h1]
    exact ⟨(), rfl⟩
  · rw [if_neg h1, if_pos h]
    exact ⟨(), rfl⟩

/-- A single embedding-worker run either leaves the embeddings table
untouched, or appends exactly the one new record for the message's document —
and appends only when no record for that document existed. -/
theorem embedProcess_embeds_cases (env : EmbedEnv) (msg : Detail) (st : State) :
    (embedProcess env msg st).embeds = st.embeds ∨
    ((embedProcess env msg st).embeds = st.embeds ++
        [⟨msg.document_id, env.embed (extract_text_from_pdf env.parse),
          extract_text_from_pdf env.parse⟩] ∧
      st.embeds.any (fun r => r.docId == msg.document_id) = false) := by
  unfold embedProcess embedProcessBody
  cases hupd : updateDocEmbedStatus st msg.document_id .processing env.now with
  | error e =>
      left
      rfl
  | ok st1 =>
      obtain ⟨-, -, hembeds1, -, -⟩ :=
        updateDocEmbedStatus_components st msg.document_id _ _ st1 hupd
      dsimp only
      by_cases hct : msg.content_type ≠ "application/pdf"
      · rw [if_pos hct]
        left
        exact (trySetEmbedStatus_components st1 _ _ _).2.2.1.trans hembeds1
      · rw [if_neg hct]
        cases hdl : env.download with
        | none =>
            left
            exact (trySetEmbedStatus_components st1 _ _ _).2.2.1.trans hembeds1
        | some file =>
            by_cases hemp : pyStrip (extract_text_from_pdf env.parse) = ""
            · rw [if_pos hemp]
              left
              exact (trySetEmbedStatus_components st1 _ _ _).2.2.1.trans hembeds1
            · rw [if_neg hemp]
              cases hcr : create_chunk_embedding st1 msg.document_id
                  (env.embed (extract_text_from_pdf env.parse))
                  (extract_text_from_pdf env.parse) env.createFails with
              | error e =>
                  left
                  exact (trySetEmbedStatus_components st1 _ _ _).2.2.1.trans hembeds1
              | ok st2 =>
                  obtain ⟨-, -, -, -, -, hemb2, hany⟩ :=
                    create_chunk_embedding_ok_components st1 msg.document_id
                      _ _ _ st2 hcr
                  right
                  constructor
                  · rw [(trySetEmbedStatus_components st2 _ _ _).2.2.1, hemb2,
                      hembeds1]
                  · rw [← hembeds1]
                    exact hany

/-- C7: at most one EmbeddingRecord per document. When a record already
exists for the message's document, `create_chunk_embedding` raises and the
whole embedding-worker run leaves the embeddings table unchanged; and in
general a worker run preserves the at-most-one-record-per-document
invariant, so redelivery cannot produce a second record. -/
theorem claim_C7_embedding_one_to_one (eenv : EmbedEnv) (msg : Detail)
    (st : State) (vec : List ℚ) (ct : String) (cf : Bool) :
    ((∃ r ∈ st.embeds, r.docId = msg.document_id) →
      (∃ e, create_chunk_embedding st msg.document_id vec ct cf = .error e)
      ∧ (embedProcess eenv msg st).embeds = st.embeds)
    ∧ (∀ d2 : Nat, countEmb st d2 ≤ 1 →
        countEmb (embedProcess eenv msg st) d2 ≤ 1) := by
  constructor
  · intro h
    have hany : st.embeds.any (fun r => r.docId == msg.document_id) = true := by
      rw [List.any_eq_true]
      obtain ⟨r, hr, hrd⟩ := h
      exact ⟨r, hr, by simp [hrd]⟩
    constructor
    · exact create_chunk_embedding_error_of_exists st msg.document_id vec ct cf hany
    · rcases embedProcess_embeds_cases eenv msg st with h1 | ⟨-, h2⟩
      · exact h1
      · rw [hany] at h2
        exact absurd h2 (by simp)
  · intro d2 hc
    rcases embedProcess_embeds_cases eenv msg st with h1 | ⟨h1, hany⟩
    · unfold countEmb
      rw [h1]
      exact hc
    · unfold countEmb
      rw [h1, List.countP_append]
      by_cases hd2 : msg.document_id = d2
      · have hz : countEmb st d2 = 0 := by
          unfold countEmb
          rw [List.countP_eq_zero]
          intro r hr
          have := List.any_eq_false.mp hany r hr
          rw [← hd2]
          exact this
        unfold countEmb at hz
        rw [hz]
        simp [hd2]
      · have : countEmb st d2 + [EmbedRow.mk msg.document_id
            (eenv.embed (extract_text_from_pdf eenv.parse))
            (extract_text_from_pdf eenv.parse)].countP (fun r => r.docId == d2)
            ≤ 1 := by
          rw [show [EmbedRow.mk msg.document_id
              (eenv.embed (extract_text_from_pdf eenv.parse))
              (extract_text_from_pdf eenv.parse)].countP
              (fun r => r.docId == d2) = 0 by simp [hd2]]
          simpa using hc
        simpa using this

/-- C7 witness: with a record already stored for document 1, a redelivered
message leaves the table unchanged and the creation call raises; counts stay
at most one. -/
theorem claim_C7_embedding_one_to_one_witness :
    ((∃ e, create_chunk_embedding
        ⟨[⟨1, .pending, 0, .pending, 0⟩], [], [], [⟨1, [1], "txt"⟩], 0, 0⟩
        1 [1] "txt" false = .error e)
    ∧ (embedProcess ⟨some "f", .ok "txt", fun _ => [1], false, 3⟩
        ⟨1, "s3://b/k", "application/pdf"⟩
        ⟨[⟨1, .pending, 0, .pending, 0⟩], [], [], [⟨1, [1], "txt"⟩], 0, 0⟩).embeds
      = [⟨1, [1], "txt"⟩])
    ∧ countEmb (embedProcess ⟨some "f", .ok "txt", fun _ => [1], false, 3⟩
        ⟨1, "s3://b/k", "application/pdf"⟩
        ⟨[⟨1, .pending, 0, .pending, 0⟩], [], [], [⟨1, [1], "txt"⟩], 0, 0⟩) 1 ≤ 1 := by
  have h := claim_C7_embedding_one_to_one
    ⟨some "f", .ok "txt", fun _ => [1], false, 3⟩
    ⟨1, "s3://b/k", "application/pdf"⟩
    ⟨[⟨1, .pending, 0, .pending, 0⟩], [], [], [⟨1, [1], "txt"⟩], 0, 0⟩
    [1] "txt" false
  exact ⟨h.1 ⟨⟨1, [1], "txt"⟩, by decide, rfl⟩, h.2 1 (by decide)⟩

/-- C8 counterexample: one candidate creates a new Tag (committed), then the
link call raises; the worker jumps to the outer handler and never reaches
`cache.delete("tags:all")` — a message that created a new Tag with zero
invalidations, refuting "invalidated exactly once if at least one new Tag
was created". -/
theorem claim_C8_counterexample :
    (tagProcess ⟨some "f", .ok "doc text", fun _ => ["ml"], fun _ _ => 1,
        fun _ => false, fun _ _ => true, 5⟩
      ⟨1, "s3://b/k", "application/pdf"⟩
      ⟨[⟨1, .pending, 0, .pending, 0⟩], [], [], [], 0, 0⟩).tags
      = [⟨0, "ml"⟩]
    ∧ (tagProcess ⟨some "f", .ok "doc text", fun _ => ["ml"], fun _ _ => 1,
        fun _ => false, fun _ _ => true, 5⟩
      ⟨1, "s3://b/k", "application/pdf"⟩
      ⟨[⟨1, .pending, 0, .pending, 0⟩], [], [], [], 0, 0⟩).cacheDeletes = 0
    ∧ ¬ (tagProcess ⟨some "f", .ok "doc text", fun _ => ["ml"], fun _ _ => 1,
        fun _ => false, fun _ _ => true, 5⟩
      ⟨1, "s3://b/k", "application/pdf"⟩
      ⟨[⟨1, .pending, 0, .pending, 0⟩], [], [], [], 0, 0⟩).cacheDeletes = 1 := by
  refine ⟨by decide, by decide, by decide⟩

/-- C8 (amended): on a tagging-worker run whose candidate loop completes
without a worker-fatal error, the `tags:all` cache entry is invalidated
exactly once when at least one new Tag was created (however many were
created) and zero times otherwise; on a run aborted by a fatal error the
cache is never invalidated, even if new Tags had already been committed. -/
theorem claim_C8_cache_invalidate_once (env : TagEnv) (msg : Detail)
    (st : State) :
    (∀ s, tagProcessBody env msg st = .ok s →
      s.cacheDeletes = st.cacheDeletes +
        (if st.tags.length < s.tags.length then 1 else 0))
    ∧ (∀ s, tagProcessBody env msg st = .error s →
      (tagProcess env msg st).cacheDeletes = st.cacheDeletes) := by
  constructor
  · intro s hs
    unfold tagProcessBody at hs
    cases hupd : updateDocTagStatus st msg.document_id .processing env.now with
    | error e =>
        rw [hupd] at hs
        dsimp only at hs
        have hseq := (Except.ok.injEq _ _).mp hs
        subst hseq
        simp
    | ok st1 =>
        obtain ⟨htags1, -, -, hcache1, -⟩ :=
          updateDocTagStatus_components st _ _ _ st1 hupd
        rw [hupd] at hs
        dsimp only at hs
        by_cases hct : msg.content_type ≠ "application/pdf"
        · rw [if_pos hct] at hs
          have hseq := (Except.ok.injEq _ _).mp hs
          subst hseq
          rw [(trySetTagStatus_components st1 _ _ _).1,
            (trySetTagStatus_components st1 _ _ _).2.2.2.1, htags1, hcache1]
          simp
        · rw [if_neg hct] at hs
          cases hdl : env.download with
          | none =>
              rw [hdl] at hs
              dsimp only at hs
              have hseq := (Except.ok.injEq _ _).mp hs
              subst hseq
              rw [(trySetTagStatus_components st1 _ _ _).1,
                (trySetTagStatus_components st1 _ _ _).2.2.2.1, htags1, hcache1]
              simp
          | some file =>
              rw [hdl] at hs
              dsimp only at hs
              cases hloop : tagLoop env msg.document_id st1.tags
                  (extract_tags env (extract_text_from_pdf env.parse))
                  st1 [] false with
              | error sx =>
                  rw [hloop] at hs
                  exact absurd hs (by simp)
              | ok p =>
                  obtain ⟨st2, nc⟩ := p
                  rw [hloop] at hs
                  dsimp only at hs
                  obtain ⟨-, -, hcache2, hlen2, hiff⟩ :=
                    tagLoop_ok_inv env _ st1.tags _ st1 [] false st2 nc hloop
                  cases nc with
                  | true =>
                      have hseq := (Except.ok.injEq _ _).mp hs
                      subst hseq
                      have hlt : st.tags.length < st2.tags.length := by
                        rcases hiff.mp rfl with hfalse | hlt
                        · exact absurd hfalse (by simp)
                        · rw [← htags1]
                          exact hlt
                      rw [(trySetTagStatus_components _ _ _ _).1,
                        (trySetTagStatus_components _ _ _ _).2.2.2.1]
                      show st2.cacheDeletes + 1 = st.cacheDeletes +
                        (if st.tags.length < st2.tags.length then 1 else 0)
                      rw [hcache2, hcache1, if_pos hlt]
                  | false =>
                      have hseq := (Except.ok.injEq _ _).mp hs
                      subst hseq
                      have hnlt : ¬ st.tags.length < st2.tags.length := by
                        intro hlt
                        have : False := by
                          have h2 := hiff.mpr (Or.inr (by rw [htags1]; exact hlt))
                          exact absurd h2 (by simp)
                        exact this
                      rw [(trySetTagStatus_components _ _ _ _).1,
                        (trySetTagStatus_components _ _ _ _).2.2.2.1]
                      show st2.cacheDeletes = st.cacheDeletes +
                        (if st.tags.length < st2.tags.length then 1 else 0)
                      rw [hcache2, hcache1, if_neg hnlt]
                      rfl
  · intro s hs
    have hscache : s.cacheDeletes = st.cacheDeletes := by
      unfold tagProcessBody at hs
      cases hupd : updateDocTagStatus st msg.document_id .processing env.now with
      | error e =>
          rw [hupd] at hs
          exact absurd hs (by simp)
      | ok st1 =>
          obtain ⟨-, -, -, hcache1, -⟩ :=
            updateDocTagStatus_components st _ _ _ st1 hupd
          rw [hupd] at hs
          dsimp only at hs
          by_cases hct : msg.content_type ≠ "application/pdf"
          · rw [if_pos hct] at hs
            exact absurd hs (by simp)
          · rw [if_neg hct] at hs
            cases hdl : env.download with
            | none =>
                rw [hdl] at hs
                exact absurd hs (by simp)
            | some file =>
                rw [hdl] at hs
                dsimp only at hs
                cases hloop : tagLoop env msg.document_id st1.tags
                    (extract_tags env (extract_text_from_pdf env.parse))
                    st1 [] false with
                | error sx =>
                    rw [hloop] at hs
                    dsimp only at hs
                    have hseq := (Except.error.injEq _ _).mp hs
                    subst hseq
                    obtain ⟨-, -, hcache⟩ :=
                      tagLoop_error_inv env _ st1.tags _ st1 [] false _ hloop
                    exact hcache.trans hcache1
                | ok p =>
                    obtain ⟨st2, nc⟩ := p
                    rw [hloop] at hs
                    cases nc <;> exact absurd hs (by simp)
    unfold tagProcess
    rw [hs]
    dsimp only
    rw [(trySetTagStatus_components s _ _ _).2.2.2.1]
    exact hscache

/-- C8 amended witness: a message creating three new tags invalidates the
cache exactly once (not three times). -/
theorem claim_C8_cache_invalidate_once_witness :
    (tagProcess ⟨some "f", .ok "doc text", fun _ => ["a", "b", "c"],
        fun _ _ => 1, fun _ => false, fun _ _ => false, 5⟩
      ⟨1, "s3://b/k", "application/pdf"⟩
      ⟨[⟨1, .pending, 0, .pending, 0⟩], [], [], [], 0, 0⟩).cacheDeletes
      = (⟨[⟨1, .pending, 0, .pending, 0⟩], [], [], [], 0, 0⟩ : State).cacheDeletes
        + (if (⟨[⟨1, .pending, 0, .pending, 0⟩], [], [], [], 0, 0⟩ : State).tags.length
            < (tagProcess ⟨some "f", .ok "doc text", fun _ => ["a", "b", "c"],
                fun _ _ => 1, fun _ => false, fun _ _ => false, 5⟩
              ⟨1, "s3://b/k", "application/pdf"⟩
              ⟨[⟨1, .pending, 0, .pending, 0⟩], [], [], [], 0, 0⟩).tags.length
          then 1 else 0)
    ∧ (tagProcess ⟨some "f", .ok "doc text", fun _ => ["a", "b", "c"],
        fun _ _ => 1, fun _ => false, fun _ _ => false, 5⟩
      ⟨1, "s3://b/k", "application/pdf"⟩
      ⟨[⟨1, .pending, 0, .pending, 0⟩], [], [], [], 0, 0⟩).tags.length = 3
    ∧ (tagProcess ⟨some "f", .ok "doc text", fun _ => ["a", "b", "c"],
        fun _ _ => 1, fun _ => false, fun _ _ => false, 5⟩
      ⟨1, "s3://b/k", "application/pdf"⟩
      ⟨[⟨1, .pending, 0, .pending, 0⟩], [], [], [], 0, 0⟩).cacheDeletes = 1 := by
  refine ⟨?_, by decide, by decide⟩
  exact (claim_C8_cache_invalidate_once
    ⟨some "f", .ok "doc text", fun _ => ["a", "b", "c"], fun _ _ => 1,
      fun _ => false, fun _ _ => false, 5⟩
    ⟨1, "s3://b/k", "application/pdf"⟩
    ⟨[⟨1, .pending, 0, .pending, 0⟩], [], [], [], 0, 0⟩).1
    (tagProcess ⟨some "f", .ok "doc text", fun _ => ["a", "b", "c"],
        fun _ _ => 1, fun _ => false, fun _ _ => false, 5⟩
      ⟨1, "s3://b/k", "application/pdf"⟩
      ⟨[⟨1, .pending, 0, .pending, 0⟩], [], [], [], 0, 0⟩) rfl

/-- C9 counterexample: for a PDF with candidates ["AI", "AI "] and no prior
tags, the snapshot of existing tags is taken once before the loop and never
refreshed, so the second candidate does NOT find the tag created for the
first: the run produces two new Tag rows and two DocumentTagLink rows, not
one of each. -/
theorem claim_C9_counterexample :
    (tagProcess ⟨some "f", .ok "doc text", fun _ => ["AI", "AI "],
        fun _ _ => 1, fun _ => false, fun _ _ => false, 5⟩
      ⟨1, "s3://b/k", "application/pdf"⟩
      ⟨[⟨1, .pending, 0, .pending, 0⟩], [], [], [], 0, 0⟩).tags.length = 2
    ∧ ¬ (tagProcess ⟨some "f", .ok "doc text", fun _ => ["AI", "AI "],
        fun _ _ => 1, fun _ => false, fun _ _ => false, 5⟩
      ⟨1, "s3://b/k", "application/pdf"⟩
      ⟨[⟨1, .pending, 0, .pending, 0⟩], [], [], [], 0, 0⟩).tags.length = 1
    ∧ (tagProcess ⟨some "f", .ok "doc text", fun _ => ["AI", "AI "],
        fun _ _ => 1, fun _ => false, fun _ _ => false, 5⟩
      ⟨1, "s3://b/k", "application/pdf"⟩
      ⟨[⟨1, .pending, 0, .pending, 0⟩], [], [], [], 0, 0⟩).links.length = 2
    ∧ ¬ (tagProcess ⟨some "f", .ok "doc text", fun _ => ["AI", "AI "],
        fun _ _ => 1, fun _ => false, fun _ _ => false, 5⟩
      ⟨1, "s3://b/k", "application/pdf"⟩
      ⟨[⟨1, .pending, 0, .pending, 0⟩], [], [], [], 0, 0⟩).links.length = 1 := by
  exact ⟨by decide, by decide, by decide, by decide⟩

/-- C9 (amended): for a PDF whose candidates are ["AI", "AI "] with no prior
tags, each candidate is matched only against the pre-loop snapshot (which
does not contain tags created during the same message), so the two
candidates create two separate new Tag rows, produce two DocumentTagLink
rows, one cache invalidation, and tagStatus = completed. -/
theorem claim_C9_duplicate_candidates :
    (tagProcess ⟨some "f", .ok "doc text", fun _ => ["AI", "AI "],
        fun _ _ => 1, fun _ => false, fun _ _ => false, 5⟩
      ⟨1, "s3://b/k", "application/pdf"⟩
      ⟨[⟨1, .pending, 0, .pending, 0⟩], [], [], [], 0, 0⟩).tags
      = [⟨0, "AI"⟩, ⟨1, "AI "⟩]
    ∧ (tagProcess ⟨some "f", .ok "doc text", fun _ => ["AI", "AI "],
        fun _ _ => 1, fun _ => false, fun _ _ => false, 5⟩
      ⟨1, "s3://b/k", "application/pdf"⟩
      ⟨[⟨1, .pending, 0, .pending, 0⟩], [], [], [], 0, 0⟩).links
      = [(1, 0), (1, 1)]
    ∧ (tagProcess ⟨some "f", .ok "doc text", fun _ => ["AI", "AI "],
        fun _ _ => 1, fun _ => false, fun _ _ => false, 5⟩
      ⟨1, "s3://b/k", "application/pdf"⟩
      ⟨[⟨1, .pending, 0, .pending, 0⟩], [], [], [], 0, 0⟩).cacheDeletes = 1
    ∧ tagStatusOf (tagProcess ⟨some "f", .ok "doc text", fun _ => ["AI", "AI "],
        fun _ _ => 1, fun _ => false, fun _ _ => false, 5⟩
      ⟨1, "s3://b/k", "application/pdf"⟩
      ⟨[⟨1, .pending, 0, .pending, 0⟩], [], [], [], 0, 0⟩) 1 = some .completed := by
  exact ⟨by decide, by decide, by decide, by decide⟩

/-- C10 counterexample: `extract_text_from_pdf` swallows every internal
exception and returns `""`, so on a downloaded PDF whose parse raises, the
embedding axis ends `skipped` — not `failed` as the claim states. -/
theorem claim_C10_counterexample :
    embedStatusOf (embedProcess ⟨some "f", .error (), fun _ => [1], false, 7⟩
      ⟨1, "s3://b/k", "application/pdf"⟩
      ⟨[⟨1, .pending, 0, .pending, 0⟩], [], [], [], 0, 0⟩) 1 = some .skipped
    ∧ ¬ embedStatusOf (embedProcess ⟨some "f", .error (), fun _ => [1], false, 7⟩
      ⟨1, "s3://b/k", "application/pdf"⟩
      ⟨[⟨1, .pending, 0, .pending, 0⟩], [], [], [], 0, 0⟩) 1 = some .failed := by
  exact ⟨by decide, by decide⟩

/-- C10 (amended): when the internal PDF parse raises during a worker run on
a downloaded PDF, `extract_text_from_pdf` catches the exception and returns
the empty string; the embedding axis therefore transitions to `skipped`
(empty-text guard) and the tagging axis to `completed` with zero candidates —
an extraction exception never takes the `failed` path. -/
theorem claim_C10_extraction_exception_swallowed (tenv : TagEnv)
    (eenv : EmbedEnv) (msg : Detail) (st : State)
    (hdoc : (findDoc st msg.document_id).isSome)
    (hct : msg.content_type = "application/pdf")
    (ftd : String) (htd : tenv.download = some ftd)
    (fed : String) (hed : eenv.download = some fed)
    (htp : tenv.parse = .error ()) (hep : eenv.parse = .error ()) :
    embedStatusOf (embedProcess eenv msg st) msg.document_id = some .skipped
    ∧ tagStatusOf (tagProcess tenv msg st) msg.document_id = some .completed := by
  have hnct : ¬ msg.content_type ≠ "application/pdf" := fun hh => hh hct
  constructor
  · obtain ⟨st1, hupd⟩ :=
      (updateDocEmbedStatus_ok_iff st msg.document_id .processing eenv.now).mpr hdoc
    have h1 : (findDoc st1 msg.document_id).isSome :=
      updateDocEmbedStatus_findDoc_isSome _ _ _ _ _ hupd
    unfold embedProcess embedProcessBody
    rw [hupd]
    dsimp only
    rw [if_neg hnct, hed]
    dsimp only
    rw [hep]
    rw [if_pos (by decide : pyStrip (extract_text_from_pdf (Except.error ())) = "")]
    exact (trySetEmbedStatus_embedStatusOf st1 _ _ _ h1).1
  · obtain ⟨st1, hupd⟩ :=
      (updateDocTagStatus_ok_iff st msg.document_id .processing tenv.now).mpr hdoc
    have h1 : (findDoc st1 msg.document_id).isSome :=
      updateDocTagStatus_findDoc_isSome _ _ _ _ _ hupd
    unfold tagProcess tagProcessBody
    rw [hupd]
    dsimp only
    rw [if_neg hnct, htd]
    dsimp only
    rw [htp]
    have hcands : extract_tags tenv (extract_text_from_pdf (.error ())) = [] := by
      unfold extract_tags
      rw [if_pos (Or.inl (by decide : extract_text_from_pdf (Except.error ()) = ""))]
    rw [hcands]
    simp only [tagLoop]
    exact (trySetTagStatus_tagStatusOf st1 _ _ _ h1).1

/-- C10 amended witness: concrete run with a raising parse on both axes. -/
theorem claim_C10_extraction_exception_swallowed_witness :
    embedStatusOf (embedProcess ⟨some "pdfbytes", .error (), fun _ => [1], false, 7⟩
      ⟨1, "s3://b/k", "application/pdf"⟩
      ⟨[⟨1, .pending, 0, .pending, 0⟩], [], [], [], 0, 0⟩) 1 = some .skipped
    ∧ tagStatusOf (tagProcess ⟨some "pdfbytes", .error (), fun _ => ["x"],
        fun _ _ => 1, fun _ => false, fun _ _ => false, 5⟩
      ⟨1, "s3://b/k", "application/pdf"⟩
      ⟨[⟨1, .pending, 0, .pending, 0⟩], [], [], [], 0, 0⟩) 1 = some .completed := by
  exact claim_C10_extraction_exception_swallowed
    ⟨some "pdfbytes", .error (), fun _ => ["x"], fun _ _ => 1,
      fun _ => false, fun _ _ => false, 5⟩
    ⟨some "pdfbytes", .error (), fun _ => [1], false, 7⟩
    ⟨1, "s3://b/k", "application/pdf"⟩
    ⟨[⟨1, .pending, 0, .pending, 0⟩], [], [], [], 0, 0⟩
    (by decide) rfl "pdfbytes" rfl "pdfbytes" rfl rfl rfl

end DocManager
